import Mathlib

/-!
Shallow embedding of the NomNom recipe cost-scaling and budget-filtering
engine (class RecipeScaler and its serving parser), together with proofs of
the specified properties.

JavaScript numbers are modelled as exact rationals extended with the IEEE
special values NaN and signed infinity (JNum): the engine's only sources of
non-finite values are division by a zero serving count and the products that
follow it, and the rounding helper's guard collapses every non-finite value
to 0.  Floating-point rounding error of individual arithmetic operations is
below the 2-decimal currency precision the engine works at and is not
modelled.
-/

/-- A JavaScript number: a finite (exact) rational, NaN, or a signed
infinity (pos = true for +Infinity). -/
inductive JNum where
  | fin (q : ℚ)
  | nan
  | inf (pos : Bool)
deriving DecidableEq, Repr

/-- IEEE multiplication on JNum: NaN propagates, 0 * Infinity = NaN,
otherwise infinities keep the sign of the product. -/
def jmul : JNum → JNum → JNum
  | .nan, _ => .nan
  | _, .nan => .nan
  | .fin a, .fin b => .fin (a * b)
  | .fin a, .inf s => if a = 0 then .nan else if 0 < a then .inf s else .inf (!s)
  | .inf s, .fin a => if a = 0 then .nan else if 0 < a then .inf s else .inf (!s)
  | .inf s, .inf t => .inf (s == t)

/-- IEEE division on JNum: NaN propagates, 0/0 = NaN, a/0 = Infinity with
the sign of a (negative zero denominators do not arise in this engine),
finite/Infinity = 0, Infinity/Infinity = NaN. -/
def jdiv : JNum → JNum → JNum
  | .nan, _ => .nan
  | _, .nan => .nan
  | .fin a, .fin b =>
    if b = 0 then (if a = 0 then .nan else .inf (decide (0 < a))) else .fin (a / b)
  | .fin _, .inf _ => .fin 0
  | .inf s, .fin b => if b < 0 then .inf (!s) else .inf s
  | .inf _, .inf _ => .nan

/-- An arbitrary JavaScript value as seen by roundToPHP: a number, or
anything whose typeof is not number. -/
inductive JSVal where
  | num (n : JNum)
  | nonNumber
deriving DecidableEq, Repr

/-- Rounding to 2 decimal places: Math.round(q * 100) / 100, where JS
Math.round is floor(x + 1/2) (half-up, ties toward positive infinity).
Rat.floor is the computable floor on the rationals. -/
def round2 (q : ℚ) : ℚ := (Rat.floor (q * 100 + 1 / 2) : ℤ) / 100

/-- RecipeScaler.roundToPHP: returns 0 for a non-number or non-finite
argument, otherwise Math.round(amount * 100) / 100. -/
def roundToPHP : JSVal → ℚ
  | .nonNumber => 0
  | .num .nan => 0
  | .num (.inf _) => 0
  | .num (.fin q) => round2 q

/-- roundToPHP applied to a number. -/
def roundNum (n : JNum) : ℚ := roundToPHP (.num n)

/-- A recipe's servings descriptor as stored: a number, a string, or
null/undefined. -/
inductive ServingsVal where
  | num (q : ℚ)
  | str (s : String)
  | nullish
deriving DecidableEq, Repr

/-- First match of the regex describing a contiguous digit run: scan for the
first digit, then take the maximal run of digits from there. -/
def firstDigitRun : List Char → Option (List Char)
  | [] => none
  | c :: cs =>
    if c.isDigit then some (c :: cs.takeWhile Char.isDigit) else firstDigitRun cs

/-- parseInt on a string of decimal digits. -/
def digitsToNat (ds : List Char) : ℕ := ds.foldl (fun n c => 10 * n + (c.toNat - 48)) 0

/-- RecipeScaler.parseServings: a number is returned directly; a falsy value
(null, undefined, the empty string) yields 1; otherwise the first contiguous
digit run of the string is parsed, defaulting to 1 when there is none. -/
def parseServings : ServingsVal → ℚ
  | .num q => q
  | .nullish => 1
  | .str s =>
    if s = "" then 1
    else
      match firstDigitRun s.data with
      | some ds => (digitsToNat ds : ℚ)
      | none => 1

/-- An ingredient record. -/
structure Ingredient where
  name : String
  quantity : ℚ
  unit : String
  costPerUnit : ℚ
  totalCost : ℚ
deriving DecidableEq, Repr

/-- The recipe fields the engine reads (other stored fields are carried
through object spread unchanged; name stands for them). -/
structure Recipe where
  name : String
  servings : ServingsVal
  totalCost : ℚ
  ingredients : List Ingredient
deriving DecidableEq, Repr

/-- Rendering of a JS number as a string, as used for the servings field of
a scaled recipe.  Serving counts are integral in every code path a claim
touches; the rendering of a non-integral value is never inspected. -/
def jsNumToString (q : ℚ) : String :=
  if q.den = 1 then toString q.num else toString q

/-- The object returned by scaleRecipeToServings.  The identity branch of
the source attaches no targetServings property, hence the Option. -/
structure ScaledRecipe where
  name : String
  servings : ServingsVal
  totalCost : ℚ
  ingredients : List Ingredient
  scaleFactor : ℚ
  costPerServing : ℚ
  originalServings : ℚ
  targetServings : Option ℚ
deriving DecidableEq, Repr

/-- RecipeScaler.scaleRecipeToServings.  The source throws
Error(Invalid recipe or target servings) when the recipe is missing or
targetServings is falsy or non-positive; with the recipe present and
targetServings a (rational) number the guard is targetServings = 0 or
targetServings <= 0. -/
def scaleRecipeToServings (recipe : Recipe) (targetServings : ℚ) :
    Except String ScaledRecipe :=
  if targetServings = 0 ∨ targetServings ≤ 0 then
    .error ("Invalid recipe or target servings")
  else
    let originalServings := parseServings recipe.servings
    if originalServings = targetServings then
      .ok { name := recipe.name, servings := recipe.servings,
            totalCost := recipe.totalCost, ingredients := recipe.ingredients,
            scaleFactor := 1,
            costPerServing := roundNum (jdiv (.fin recipe.totalCost) (.fin originalServings)),
            originalServings, targetServings := none }
    else
      let scaleFactor := jdiv (.fin targetServings) (.fin originalServings)
      let scaledIngredients := recipe.ingredients.map fun ing =>
        { name := ing.name,
          quantity := roundNum (jmul (.fin ing.quantity) scaleFactor),
          unit := ing.unit,
          costPerUnit := ing.costPerUnit,
          totalCost := roundNum (jmul (.fin ing.totalCost) scaleFactor) : Ingredient }
      let scaledTotalCost := roundNum (jmul (.fin recipe.totalCost) scaleFactor)
      let costPerServing := roundNum (jdiv (.fin scaledTotalCost) (.fin targetServings))
      .ok { name := recipe.name,
            servings := .str (jsNumToString targetServings),
            totalCost := scaledTotalCost, ingredients := scaledIngredients,
            scaleFactor := roundNum scaleFactor, costPerServing,
            originalServings, targetServings := some targetServings }

/-- The object produced for each recipe by filterRecipesByBudgetAndServings:
the spread recipe plus the scaling and budget annotations. -/
structure FilteredRecipe where
  name : String
  servings : ServingsVal
  totalCost : ℚ
  ingredients : List Ingredient
  scaledTotalCost : ℚ
  costPerServing : ℚ
  scaleFactor : ℚ
  targetServings : ℚ
  originalServings : ℚ
  fitsInBudget : Bool
deriving DecidableEq, Repr

/-- The recipe fields carried through the spread, recovered from a
FilteredRecipe. -/
def FilteredRecipe.base (f : FilteredRecipe) : Recipe :=
  { name := f.name, servings := f.servings, totalCost := f.totalCost,
    ingredients := f.ingredients }

/-- The per-recipe mapping step of filterRecipesByBudgetAndServings. -/
def annotateRecipe (budget targetServings : ℚ) (recipe : Recipe) : FilteredRecipe :=
  let originalServings := parseServings recipe.servings
  let scaleFactor := jdiv (.fin targetServings) (.fin originalServings)
  let scaledTotalCost := roundNum (jmul (.fin recipe.totalCost) scaleFactor)
  let costPerServing := roundNum (jdiv (.fin scaledTotalCost) (.fin targetServings))
  { name := recipe.name, servings := recipe.servings,
    totalCost := recipe.totalCost, ingredients := recipe.ingredients,
    scaledTotalCost, costPerServing,
    scaleFactor := roundNum scaleFactor,
    targetServings, originalServings,
    fitsInBudget := decide (scaledTotalCost ≤ budget) }

/-- The ascending cost-per-serving comparison used by the sort step (the
source comparator subtracts the two finite costPerServing numbers). -/
def cpsLE (a b : FilteredRecipe) : Bool := decide (a.costPerServing ≤ b.costPerServing)

/-- RecipeScaler.filterRecipesByBudgetAndServings.  A missing (none) or
falsy (zero) or non-positive budget or targetServings yields an empty list;
otherwise each recipe is annotated, kept when its scaled total cost fits the
budget, and the kept recipes are stably sorted ascending by costPerServing
(Array.prototype.sort with a numeric comparator is a stable ascending
sort). -/
def filterRecipesByBudgetAndServings (recipes : List Recipe) :
    Option ℚ → Option ℚ → List FilteredRecipe
  | some b, some t =>
    if recipes.isEmpty then []
    else if b = 0 ∨ b ≤ 0 ∨ t = 0 ∨ t ≤ 0 then []
    else
      (((recipes.map (annotateRecipe b t)).filter (fun r => r.fitsInBudget)).mergeSort cpsLE)
  | none, _ => []
  | _, none => []

/-- RecipeScaler.calculateCostPerServing: 0 when totalCost is falsy; the
explicit servings argument is used when truthy, else the parsed stored
descriptor; 0 when the resulting serving count is non-positive. -/
def calculateCostPerServing (recipe : Recipe) (servings : Option ℚ) : ℚ :=
  if recipe.totalCost = 0 then 0
  else
    let actualServings :=
      match servings with
      | some s => if s = 0 then parseServings recipe.servings else s
      | none => parseServings recipe.servings
    if actualServings ≤ 0 then 0
    else roundNum (jdiv (.fin recipe.totalCost) (.fin actualServings))

/-- The object produced for each recipe by filterRecipesByBudgetRange: the
scaling annotations are present only when a truthy targetServings was
supplied. -/
structure RangeAnnotated where
  name : String
  servings : ServingsVal
  totalCost : ℚ
  ingredients : List Ingredient
  scaledTotalCost : Option ℚ
  costPerServing : ℚ
  scaleFactor : Option ℚ
  targetServings : Option ℚ
  originalServings : Option ℚ
deriving DecidableEq, Repr

/-- The per-recipe mapping step of filterRecipesByBudgetRange: scale when
targetServings is truthy, else annotate with the recipe's own cost per
serving. -/
def rangeAnnotate (targetServings : Option ℚ) (recipe : Recipe) : RangeAnnotated :=
  let unscaled : RangeAnnotated :=
    { name := recipe.name, servings := recipe.servings,
      totalCost := recipe.totalCost, ingredients := recipe.ingredients,
      scaledTotalCost := none,
      costPerServing := calculateCostPerServing recipe none,
      scaleFactor := none, targetServings := none, originalServings := none }
  match targetServings with
  | none => unscaled
  | some t =>
    if t = 0 then unscaled
    else
      let originalServings := parseServings recipe.servings
      let scaleFactor := jdiv (.fin t) (.fin originalServings)
      let scaledTotalCost := roundNum (jmul (.fin recipe.totalCost) scaleFactor)
      { name := recipe.name, servings := recipe.servings,
        totalCost := recipe.totalCost, ingredients := recipe.ingredients,
        scaledTotalCost := some scaledTotalCost,
        costPerServing := roundNum (jdiv (.fin scaledTotalCost) (.fin t)),
        scaleFactor := some (roundNum scaleFactor),
        targetServings := some t,
        originalServings := some originalServings }

/-- The JS expression x || d for an optionally-present number x: the default
applies when x is absent or 0. -/
def jsOrDefault (v : Option ℚ) (d : ℚ) : ℚ :=
  match v with
  | some q => if q = 0 then d else q
  | none => d

/-- The cost used by the range filter and its sort:
recipe.scaledTotalCost || recipe.totalCost (a scaled total of exactly 0
falls back to the unscaled total). -/
def rangeCost (r : RangeAnnotated) : ℚ :=
  match r.scaledTotalCost with
  | some c => if c = 0 then r.totalCost else c
  | none => r.totalCost

/-- Number.MAX_SAFE_INTEGER. -/
def maxSafeInteger : ℚ := 9007199254740991

/-- RecipeScaler.filterRecipesByBudgetRange: annotate (scaling only when a
truthy targetServings is given), keep recipes whose cost lies in the
inclusive window, with a missing or zero minBudget defaulting to 0 and a
missing or zero maxBudget defaulting to Number.MAX_SAFE_INTEGER, then sort
ascending by the same cost. -/
def filterRecipesByBudgetRange (recipes : List Recipe)
    (minBudget maxBudget targetServings : Option ℚ) : List RangeAnnotated :=
  if recipes.isEmpty then []
  else
    (((recipes.map (rangeAnnotate targetServings)).filter (fun r =>
        decide (jsOrDefault minBudget 0 ≤ rangeCost r) &&
        decide (rangeCost r ≤ jsOrDefault maxBudget maxSafeInteger))).mergeSort
      (fun a b => decide (rangeCost a ≤ rangeCost b)))

/-! ### Helper lemmas on the rounding helper and the JNum arithmetic -/

theorem roundNum_fin (q : ℚ) : roundNum (.fin q) = round2 q := rfl

theorem roundNum_nan : roundNum .nan = 0 := rfl

theorem roundNum_inf (b : Bool) : roundNum (.inf b) = 0 := rfl

theorem ratFloor_eq_intFloor (a : ℚ) : (Rat.floor a : ℤ) = ⌊a⌋ := by
  rw [Rat.floor_def', Rat.floor_def]

/-- round2 written with the order-theoretic floor. -/
theorem round2_eq (q : ℚ) : round2 q = (⌊q * 100 + 1 / 2⌋ : ℤ) / 100 := by
  rw [round2, ratFloor_eq_intFloor]

theorem round2_zero : round2 0 = 0 := by
  norm_num [round2_eq]

/-- Multiplying a finite value by an infinity always rounds to 0. -/
theorem roundNum_mul_inf (a : ℚ) (b : Bool) : roundNum (jmul (.fin a) (.inf b)) = 0 := by
  simp only [jmul]
  split
  · rfl
  · split <;> rfl

/-- Division of finite JS numbers rounds exactly like exact rational
division (rational division by zero is 0, and the rounding guard sends the
infinite or NaN quotient to 0 as well). -/
theorem roundNum_jdiv (a b : ℚ) :
    roundNum (jdiv (.fin a) (.fin b)) = round2 (a / b) := by
  by_cases hb : b = 0
  · subst hb
    by_cases ha : a = 0 <;>
      simp [jdiv, ha, div_zero, round2_zero, roundNum, roundToPHP]
  · simp [jdiv, hb, roundNum, roundToPHP]

/-- The scaled-and-rounded product computed by the engine agrees with exact
rational arithmetic: multiplying by the scale factor t / s and rounding,
with every non-finite intermediate collapsing to 0 exactly as rational
division by zero yields 0. -/
theorem roundNum_mul_scale (a t s : ℚ) :
    roundNum (jmul (.fin a) (jdiv (.fin t) (.fin s))) = round2 (a * (t / s)) := by
  by_cases hs : s = 0
  · subst hs
    rw [div_zero, mul_zero, round2_zero]
    by_cases ht : t = 0
    · simp [jdiv, ht, jmul, roundNum_nan]
    · simp only [jdiv, if_pos rfl, if_neg ht]
      exact roundNum_mul_inf a _
  · simp [jdiv, hs, jmul, roundNum, roundToPHP]

/-- round2 is Mathlib's round-half-up rounding of the value scaled by 100. -/
theorem round2_eq_round (q : ℚ) : round2 q = (round (q * 100) : ℤ) / 100 := by
  rw [round_eq, round2_eq]

theorem round2_nonneg (q : ℚ) (hq : 0 ≤ q) : 0 ≤ round2 q := by
  rw [round2_eq]
  have h : (0 : ℤ) ≤ ⌊q * 100 + 1 / 2⌋ := by
    apply Int.floor_nonneg.mpr
    positivity
  positivity

/-- round2 is idempotent: a value already rounded to 2 decimals is its own
rounding. -/
theorem round2_idem (q : ℚ) : round2 (round2 q) = round2 q := by
  rw [round2_eq, round2_eq]
  have h : ((⌊q * 100 + 1 / 2⌋ : ℤ) : ℚ) / 100 * 100 = (⌊q * 100 + 1 / 2⌋ : ℤ) := by
    field_simp
  rw [h, Int.floor_int_add]
  have h2 : ⌊(1 : ℚ) / 2⌋ = 0 := by norm_num
  rw [h2, add_zero]

/-! ### Helper lemmas on the serving parser -/

theorem firstDigitRun_append_of_nodigits (pre l : List Char)
    (h : ∀ a ∈ pre, ¬ a.isDigit) :
    firstDigitRun (pre ++ l) = firstDigitRun l := by
  induction pre with
  | nil => rfl
  | cons c cs ih =>
    have hc : ¬ c.isDigit = true := h c (List.mem_cons_self c cs)
    simp only [List.cons_append, firstDigitRun, if_neg hc]
    exact ih fun a ha => h a (List.mem_cons_of_mem c ha)

theorem firstDigitRun_eq_none (l : List Char) (h : ∀ a ∈ l, ¬ a.isDigit) :
    firstDigitRun l = none := by
  have := firstDigitRun_append_of_nodigits l [] h
  simpa using this

/-! ### Closed forms of scaleRecipeToServings on its two branches -/

/-- An ingredient scaled by the exact rational factor sf, each scaled field
rounded to 2 decimals, name, unit and costPerUnit unchanged. -/
def scaledIngredientQ (sf : ℚ) (ing : Ingredient) : Ingredient :=
  { name := ing.name, quantity := round2 (ing.quantity * sf), unit := ing.unit,
    costPerUnit := ing.costPerUnit, totalCost := round2 (ing.totalCost * sf) }

theorem not_nonpos_guard {T : ℚ} (hT : 0 < T) : ¬(T = 0 ∨ T ≤ 0) := by
  push_neg
  exact ⟨ne_of_gt hT, hT⟩

/-- On the identity branch (parsed servings equal to the target), the
result keeps every recipe field and attaches scaleFactor 1, the rounded
cost per serving, and originalServings, but no targetServings. -/
theorem scale_eq_identity (r : Recipe) (T : ℚ) (hT : 0 < T)
    (hid : parseServings r.servings = T) :
    scaleRecipeToServings r T = .ok
      { name := r.name, servings := r.servings, totalCost := r.totalCost,
        ingredients := r.ingredients, scaleFactor := 1,
        costPerServing := round2 (r.totalCost / T),
        originalServings := T, targetServings := none } := by
  rw [scaleRecipeToServings, if_neg (not_nonpos_guard hT)]
  simp only [hid]
  rw [if_pos trivial]
  simp only [roundNum_jdiv]

/-- On the scaling branch (parsed servings different from the target), the
result is the recipe with every ingredient scaled by the exact rational
factor T / S and rounded, the total cost scaled from the original
aggregate, and the cost per serving derived from the scaled total. -/
theorem scale_eq_scaled (r : Recipe) (T : ℚ) (hT : 0 < T)
    (hne : parseServings r.servings ≠ T) :
    scaleRecipeToServings r T = .ok
      { name := r.name,
        servings := .str (jsNumToString T),
        totalCost := round2 (r.totalCost * (T / parseServings r.servings)),
        ingredients := r.ingredients.map (scaledIngredientQ (T / parseServings r.servings)),
        scaleFactor := round2 (T / parseServings r.servings),
        costPerServing :=
          round2 (round2 (r.totalCost * (T / parseServings r.servings)) / T),
        originalServings := parseServings r.servings,
        targetServings := some T } := by
  rw [scaleRecipeToServings, if_neg (not_nonpos_guard hT)]
  simp only [if_neg hne, roundNum_mul_scale, roundNum_jdiv, scaledIngredientQ]
  rfl

/-! ### Concrete data for witnesses and counterexamples -/

/-- The rice ingredient of the worked example of the specification. -/
def riceIngredient : Ingredient :=
  { name := "rice", quantity := 2, unit := "cups", costPerUnit := 10, totalCost := 20 }

/-- The chicken ingredient of the worked example of the specification. -/
def chickenIngredient : Ingredient :=
  { name := "chicken", quantity := 1, unit := "kg", costPerUnit := 80, totalCost := 80 }

/-- The worked example recipe: serves 4, costs 100. -/
def demoRecipe : Recipe :=
  { name := "demo", servings := .str ("4"), totalCost := 100,
    ingredients := [riceIngredient, chickenIngredient] }

/-- A degenerate recipe violating the documented preconditions: no
ingredients and a negative total cost. -/
def emptyRecipe : Recipe :=
  { name := "empty", servings := .num 4, totalCost := -5, ingredients := [] }

/-- A recipe whose stored servings descriptor is the number 0. -/
def zeroServingsRecipe : Recipe :=
  { name := "zero", servings := .num 0, totalCost := 50, ingredients := [riceIngredient] }

/-- A data-model-valid ingredient whose quantity carries three decimal
places: the data model rounds cost fields, never quantities, and
totalCost 20 is exactly round2(0.125 * 160). -/
def eighthIngredient : Ingredient :=
  { name := "saffron", quantity := 1 / 8, unit := "tsp", costPerUnit := 160,
    totalCost := 20 }

/-- A data-model-valid recipe containing the three-decimal quantity; its
totalCost 100 is the rounded sum 20 + 80 of its ingredient costs. -/
def eighthRecipe : Recipe :=
  { name := "eighth", servings := .num 4, totalCost := 100,
    ingredients := [eighthIngredient, chickenIngredient] }

/-! ### The claims about scaleRecipeToServings and parseServings -/

/-- C1: for every recipe whose parsed base serving count S differs from a
positive target T, scaleToServings returns each ingredient with quantity
round2(quantity * T/S) and totalCost round2(totalCost * T/S), leaving name,
unit and costPerUnit unchanged; the recipe-level totalCost is
round2(original totalCost * T/S), computed from the original aggregate
rather than by re-summing the scaled ingredients; and costPerServing is
round2(scaled totalCost / T). -/
theorem scale_proportional (r : Recipe) (T : ℚ) (hT : 0 < T)
    (hne : parseServings r.servings ≠ T) :
    ∃ out : ScaledRecipe, scaleRecipeToServings r T = .ok out ∧
      out.ingredients = r.ingredients.map (fun ing =>
        { name := ing.name,
          quantity := round2 (ing.quantity * (T / parseServings r.servings)),
          unit := ing.unit, costPerUnit := ing.costPerUnit,
          totalCost := round2 (ing.totalCost * (T / parseServings r.servings)) }) ∧
      out.totalCost = round2 (r.totalCost * (T / parseServings r.servings)) ∧
      out.costPerServing = round2 (out.totalCost / T) :=
  ⟨_, scale_eq_scaled r T hT hne, rfl, rfl, rfl⟩

/-- Witness for C1 at the worked example scaled from 4 to 8 servings. -/
theorem scale_proportional_check :
    (0 : ℚ) < 8 ∧ parseServings demoRecipe.servings ≠ 8 ∧
    (∃ out : ScaledRecipe, scaleRecipeToServings demoRecipe 8 = .ok out ∧
      out.ingredients = demoRecipe.ingredients.map (fun ing =>
        { name := ing.name,
          quantity := round2 (ing.quantity * (8 / parseServings demoRecipe.servings)),
          unit := ing.unit, costPerUnit := ing.costPerUnit,
          totalCost := round2 (ing.totalCost * (8 / parseServings demoRecipe.servings)) }) ∧
      out.totalCost = round2 (demoRecipe.totalCost * (8 / parseServings demoRecipe.servings)) ∧
      out.costPerServing = round2 (out.totalCost / 8)) :=
  ⟨by norm_num, by decide, scale_proportional demoRecipe 8 (by norm_num) (by decide)⟩

/-- C2 counterexample: a recipe with an empty ingredient list and a
non-positive totalCost is accepted by scaleToServings (the source guard
checks only the recipe's presence and the target), refuting the claim that
such inputs fail with an InvalidArgument error. -/
theorem scale_no_ingredient_guard :
    emptyRecipe.ingredients = [] ∧ emptyRecipe.totalCost ≤ 0 ∧
    (scaleRecipeToServings emptyRecipe 2).isOk = true :=
  ⟨rfl, by norm_num [emptyRecipe], rfl⟩

/-- C2 (amended): scaleToServings fails exactly when targetServings is not
a positive number; an empty ingredient list or a non-positive totalCost is
not checked, and with a positive target the call returns normally. -/
theorem scale_isOk_iff (r : Recipe) (T : ℚ) :
    (scaleRecipeToServings r T).isOk = true ↔ 0 < T := by
  constructor
  · intro hok
    by_contra hT
    push_neg at hT
    rw [scaleRecipeToServings, if_pos (Or.inr hT)] at hok
    simp [Except.isOk, Except.toBool] at hok
  · intro hT
    by_cases hid : parseServings r.servings = T
    · rw [scale_eq_identity r T hT hid]
      rfl
    · rw [scale_eq_scaled r T hT hid]
      rfl

/-- C3: when the parsed base serving count equals the positive target, the
recipe comes back unchanged (same ingredients, servings field and
totalCost) except for the attached scaleFactor 1 and the computed
costPerServing round2(totalCost / S); the ingredients are not rescaled or
re-rounded. -/
theorem scale_identity_claim (r : Recipe) (T : ℚ) (hT : 0 < T)
    (hid : parseServings r.servings = T) :
    scaleRecipeToServings r T = .ok
      { name := r.name, servings := r.servings, totalCost := r.totalCost,
        ingredients := r.ingredients, scaleFactor := 1,
        costPerServing := round2 (r.totalCost / T),
        originalServings := T, targetServings := none } :=
  scale_eq_identity r T hT hid

/-- Witness for C3 at the worked example requested at its own serving
count. -/
theorem scale_identity_claim_check :
    (0 : ℚ) < 4 ∧ parseServings demoRecipe.servings = 4 ∧
    scaleRecipeToServings demoRecipe 4 = .ok
      { name := demoRecipe.name, servings := demoRecipe.servings,
        totalCost := demoRecipe.totalCost, ingredients := demoRecipe.ingredients,
        scaleFactor := 1, costPerServing := round2 (demoRecipe.totalCost / 4),
        originalServings := 4, targetServings := none } :=
  ⟨by norm_num, by decide, scale_identity_claim demoRecipe 4 (by norm_num) (by decide)⟩

/-- C7 counterexample: on the identity branch the result carries no
targetServings field, refuting the claim that every valid call exposes
both originalServings and targetServings. -/
theorem identity_omits_targetServings :
    (scaleRecipeToServings demoRecipe 4).map ScaledRecipe.targetServings = .ok none :=
  rfl

/-- C7 (amended): a valid scaling call exposes originalServings always, and
targetServings exactly on the non-identity branch; the identity branch
attaches originalServings only. -/
theorem scale_exposes_servings_fields (r : Recipe) (T : ℚ) (hT : 0 < T) :
    (parseServings r.servings ≠ T →
      ∃ out : ScaledRecipe, scaleRecipeToServings r T = .ok out ∧
        out.originalServings = parseServings r.servings ∧
        out.targetServings = some T) ∧
    (parseServings r.servings = T →
      ∃ out : ScaledRecipe, scaleRecipeToServings r T = .ok out ∧
        out.originalServings = parseServings r.servings ∧
        out.targetServings = none) := by
  constructor
  · intro hne
    exact ⟨_, scale_eq_scaled r T hT hne, rfl, rfl⟩
  · intro hid
    exact ⟨_, scale_eq_identity r T hT hid, hid.symm, rfl⟩

/-- Witness for the amended C7 at the worked example with target 4. -/
theorem scale_exposes_servings_fields_check :
    (0 : ℚ) < 4 ∧
    ((parseServings demoRecipe.servings ≠ 4 →
      ∃ out : ScaledRecipe, scaleRecipeToServings demoRecipe 4 = .ok out ∧
        out.originalServings = parseServings demoRecipe.servings ∧
        out.targetServings = some 4) ∧
    (parseServings demoRecipe.servings = 4 →
      ∃ out : ScaledRecipe, scaleRecipeToServings demoRecipe 4 = .ok out ∧
        out.originalServings = parseServings demoRecipe.servings ∧
        out.targetServings = none)) :=
  ⟨by norm_num, scale_exposes_servings_fields demoRecipe 4 (by norm_num)⟩

/-- C8: parseServings returns numeric input directly and unchanged; a
string is parsed to its first contiguous digit run; a string with no
digits, the empty string, and null all give the default 1; the function is
total, so it never throws.  The specified examples evaluate as stated. -/
theorem parseServings_robust :
    (∀ q : ℚ, parseServings (.num q) = q) ∧
    parseServings .nullish = 1 ∧
    (∀ s : String, (∀ c ∈ s.data, ¬ c.isDigit) → parseServings (.str s) = 1) ∧
    (∀ (pre post : List Char) (c : Char), (∀ a ∈ pre, ¬ a.isDigit) → c.isDigit →
      parseServings (.str (String.mk (pre ++ c :: post))) =
        (digitsToNat (c :: post.takeWhile Char.isDigit) : ℚ)) ∧
    parseServings (.str ("4 people")) = 4 ∧
    parseServings (.str ("4 to 6")) = 4 ∧
    parseServings (.num 6) = 6 ∧
    parseServings (.str ("")) = 1 ∧
    parseServings (.str ("no digits here")) = 1 := by
  refine ⟨fun q => rfl, rfl, ?_, ?_, by decide, by decide, rfl, rfl, by decide⟩
  · intro s hs
    simp only [parseServings]
    by_cases he : s = ""
    · rw [if_pos he]
    · rw [if_neg he, firstDigitRun_eq_none s.data hs]
  · intro pre post c hpre hc
    have hemp : String.mk (pre ++ c :: post) ≠ "" := by
      intro hcontra
      have hdata : pre ++ c :: post = ([] : List Char) := by
        have h2 := congrArg String.data hcontra
        simp at h2
      simp at hdata
    simp only [parseServings]
    rw [if_neg hemp]
    have hrun : firstDigitRun (String.mk (pre ++ c :: post)).data =
        some (c :: post.takeWhile Char.isDigit) := by
      have : (String.mk (pre ++ c :: post)).data = pre ++ c :: post := rfl
      rw [this, firstDigitRun_append_of_nodigits pre _ hpre]
      simp only [firstDigitRun, if_pos hc]
    rw [hrun]

/-- Witness for C8's universally quantified clauses: a digit-free string,
and a string whose first digit run follows a non-digit prefix. -/
theorem parseServings_robust_check :
    parseServings (.str ("servings unknown")) = 1 ∧
    parseServings (.str (String.mk (['x', ' '] ++ '4' :: ['2', 'p']))) =
      (digitsToNat ('4' :: (['2', 'p'].takeWhile Char.isDigit)) : ℚ) :=
  ⟨parseServings_robust.2.2.1 "servings unknown" (by decide),
   parseServings_robust.2.2.2.1 ['x', ' '] ['2', 'p'] '4' (by decide) (by decide)⟩

/-! ### Helper lemmas for the budget filter -/

theorem round2_roundNum (n : JNum) : round2 (roundNum n) = roundNum n := by
  cases n with
  | fin q => exact round2_idem q
  | nan => exact round2_zero
  | inf b => exact round2_zero

/-- The scaled total cost of a recipe at target t, in exact rational terms
(division by a zero parsed serving count yields 0, matching the engine's
collapse of the infinite scale factor). -/
def scaledCost (t : ℚ) (r : Recipe) : ℚ :=
  round2 (r.totalCost * (t / parseServings r.servings))

theorem annotateRecipe_base (b t : ℚ) (r : Recipe) :
    (annotateRecipe b t r).base = r := rfl

theorem annotateRecipe_scaledTotalCost (b t : ℚ) (r : Recipe) :
    (annotateRecipe b t r).scaledTotalCost = scaledCost t r := by
  simp only [annotateRecipe, scaledCost, roundNum_mul_scale]

theorem annotateRecipe_costPerServing (b t : ℚ) (r : Recipe) :
    (annotateRecipe b t r).costPerServing = round2 (scaledCost t r / t) := by
  simp only [annotateRecipe, scaledCost, roundNum_mul_scale, roundNum_jdiv]

theorem annotateRecipe_fits (b t : ℚ) (r : Recipe) :
    (annotateRecipe b t r).fitsInBudget = decide (scaledCost t r ≤ b) := by
  simp only [annotateRecipe, scaledCost, roundNum_mul_scale]

/-- With positive budget and target, the filter is the annotate-filter-sort
pipeline. -/
theorem filterAndRank_pos (recipes : List Recipe) (b t : ℚ) (hb : 0 < b) (ht : 0 < t) :
    filterRecipesByBudgetAndServings recipes (some b) (some t) =
      ((recipes.map (annotateRecipe b t)).filter (fun f => f.fitsInBudget)).mergeSort cpsLE := by
  rw [filterRecipesByBudgetAndServings]
  have hcond : ¬(b = 0 ∨ b ≤ 0 ∨ t = 0 ∨ t ≤ 0) := by
    push_neg
    exact ⟨ne_of_gt hb, hb, ne_of_gt ht, ht⟩
  rw [if_neg hcond]
  by_cases hre : recipes.isEmpty
  · rw [if_pos hre, List.isEmpty_iff.mp hre]
    simp
  · rw [if_neg hre]

/-- Every member of a positive-parameter filter result is the annotation of
some input recipe, and carries a true fitsInBudget flag. -/
theorem exists_of_mem_filterAndRank {recipes : List Recipe} {b t : ℚ}
    {f : FilteredRecipe}
    (hf : f ∈ filterRecipesByBudgetAndServings recipes (some b) (some t)) :
    0 < b ∧ 0 < t ∧ ∃ r ∈ recipes, f = annotateRecipe b t r ∧ f.fitsInBudget = true := by
  rw [filterRecipesByBudgetAndServings] at hf
  split at hf
  · exact absurd hf (List.not_mem_nil f)
  · split at hf
    · exact absurd hf (List.not_mem_nil f)
    · next hcond =>
      push_neg at hcond
      rw [List.mem_mergeSort, List.mem_filter] at hf
      obtain ⟨hmem, hfits⟩ := hf
      obtain ⟨r, hr, hfr⟩ := List.mem_map.mp hmem
      exact ⟨hcond.2.1, hcond.2.2.2, r, hr, hfr.symm, hfits⟩

theorem cpsLE_trans (a b c : FilteredRecipe) (hab : cpsLE a b) (hbc : cpsLE b c) :
    cpsLE a c := by
  simp only [cpsLE, decide_eq_true_iff] at hab hbc ⊢
  exact le_trans hab hbc

theorem cpsLE_total (a b : FilteredRecipe) : cpsLE a b || cpsLE b a := by
  simp only [cpsLE, Bool.or_eq_true, decide_eq_true_iff]
  exact le_total a.costPerServing b.costPerServing

/-- C9 counterexample: a data-model-valid recipe holding a stored
ingredient quantity of 0.125 (its cost fields properly rounded), called at
its own serving count, emits that quantity verbatim through the identity
branch, and 0.125 is not a round2 fixed point - refuting the claim that
every emitted ingredient quantity satisfies round2(x) == x. -/
theorem identity_emits_unrounded_quantity :
    (scaleRecipeToServings eighthRecipe 4).map
        (fun out => out.ingredients.map Ingredient.quantity) =
      .ok [1 / 8, 1] ∧
    round2 (1 / 8) ≠ (1 / 8 : ℚ) := by
  constructor
  · rfl
  · rw [round2_eq]
    norm_num

/-- C9 (amended): the single rounding helper computes round-half-up
rounding of the value scaled by 100, returns 0 for NaN, infinities and
non-numbers, and is idempotent; every currency value the engine computes
afresh is a round2 fixed point - on the scaling branch the recipe
totalCost, the costPerServing and every scaled ingredient quantity and
totalCost, and in the budget filter every scaledTotalCost and
costPerServing - while the identity branch passes the stored ingredient
list and the stored totalCost through unchanged, so those fields carry at
most 2 decimals only insofar as the stored data does. -/
theorem rounding_policy_outputs :
    (∀ q : ℚ, round2 q = (round (q * 100) : ℤ) / 100) ∧
    roundToPHP .nonNumber = 0 ∧
    roundToPHP (.num .nan) = 0 ∧
    (∀ s, roundToPHP (.num (.inf s)) = 0) ∧
    (∀ q : ℚ, round2 (round2 q) = round2 q) ∧
    (∀ (r : Recipe) (T : ℚ) (out : ScaledRecipe),
      parseServings r.servings ≠ T →
      scaleRecipeToServings r T = .ok out →
      round2 out.totalCost = out.totalCost ∧
      round2 out.costPerServing = out.costPerServing ∧
      ∀ ing ∈ out.ingredients,
        round2 ing.quantity = ing.quantity ∧ round2 ing.totalCost = ing.totalCost) ∧
    (∀ (r : Recipe) (T : ℚ) (out : ScaledRecipe),
      parseServings r.servings = T →
      scaleRecipeToServings r T = .ok out →
      round2 out.costPerServing = out.costPerServing ∧
      out.ingredients = r.ingredients ∧ out.totalCost = r.totalCost) ∧
    (∀ (recipes : List Recipe) (b t : Option ℚ),
      ∀ f ∈ filterRecipesByBudgetAndServings recipes b t,
        round2 f.scaledTotalCost = f.scaledTotalCost ∧
        round2 f.costPerServing = f.costPerServing) := by
  refine ⟨round2_eq_round, rfl, rfl, fun s => rfl, round2_idem, ?_, ?_, ?_⟩
  · intro r T out hne heq
    have hT : 0 < T := by
      by_contra hT
      push_neg at hT
      rw [scaleRecipeToServings, if_pos (Or.inr hT)] at heq
      exact absurd heq (by simp)
    rw [scale_eq_scaled r T hT hne] at heq
    injection heq with h
    subst h
    refine ⟨round2_idem _, round2_idem _, ?_⟩
    intro ing hing
    obtain ⟨a, ha, rfl⟩ := List.mem_map.mp hing
    exact ⟨round2_idem _, round2_idem _⟩
  · intro r T out hid heq
    have hT : 0 < T := by
      by_contra hT
      push_neg at hT
      rw [scaleRecipeToServings, if_pos (Or.inr hT)] at heq
      exact absurd heq (by simp)
    rw [scale_eq_identity r T hT hid] at heq
    injection heq with h
    subst h
    exact ⟨round2_idem _, rfl, rfl⟩
  · intro recipes b t f hf
    cases b with
    | none => simp [filterRecipesByBudgetAndServings] at hf
    | some bq =>
      cases t with
      | none => simp [filterRecipesByBudgetAndServings] at hf
      | some tq =>
        obtain ⟨hb, ht, r, hr, rfl, hfits⟩ := exists_of_mem_filterAndRank hf
        rw [annotateRecipe_scaledTotalCost, annotateRecipe_costPerServing]
        exact ⟨round2_idem _, round2_idem _⟩

/-- Witness for the amended C9: the worked example scaled from 4 to 8
servings has only freshly rounded outputs, and the quantity-0.125 recipe
requested at its own serving count gets its stored ingredient list and
totalCost passed through. -/
theorem rounding_policy_outputs_check :
    (∃ out : ScaledRecipe, scaleRecipeToServings demoRecipe 8 = .ok out ∧
      (round2 out.totalCost = out.totalCost ∧
       round2 out.costPerServing = out.costPerServing ∧
       ∀ ing ∈ out.ingredients,
         round2 ing.quantity = ing.quantity ∧
         round2 ing.totalCost = ing.totalCost)) ∧
    (∃ out : ScaledRecipe, scaleRecipeToServings eighthRecipe 4 = .ok out ∧
      (round2 out.costPerServing = out.costPerServing ∧
       out.ingredients = eighthRecipe.ingredients ∧
       out.totalCost = eighthRecipe.totalCost)) := by
  constructor
  · have heq := scale_eq_scaled demoRecipe 8 (by norm_num) (by decide)
    exact ⟨_, heq, rounding_policy_outputs.2.2.2.2.2.1 demoRecipe 8 _ (by decide) heq⟩
  · have heq := scale_eq_identity eighthRecipe 4 (by norm_num) (by decide)
    exact ⟨_, heq, rounding_policy_outputs.2.2.2.2.2.2.1 eighthRecipe 4 _ (by decide) heq⟩

/-- C4: with positive budget B and target T, the filter output consists of
exactly those input recipes whose scaled total cost round2(totalCost * T/S)
is at most B — the comparison is inclusive, so a recipe costing exactly B is
kept, and no recipe whose scaled cost exceeds B appears — and every
returned recipe is annotated with fitsInBudget = true. -/
theorem filterAndRank_budget_exact (recipes : List Recipe) (b t : ℚ)
    (hb : 0 < b) (ht : 0 < t) :
    ((filterRecipesByBudgetAndServings recipes (some b) (some t)).map
        FilteredRecipe.base).Perm
      (recipes.filter (fun r => decide (scaledCost t r ≤ b))) ∧
    ∀ f ∈ filterRecipesByBudgetAndServings recipes (some b) (some t),
      f.fitsInBudget = true ∧ f.scaledTotalCost = scaledCost t f.base ∧
      f.scaledTotalCost ≤ b := by
  constructor
  · rw [filterAndRank_pos recipes b t hb ht]
    refine ((List.mergeSort_perm _ cpsLE).map FilteredRecipe.base).trans ?_
    rw [List.filter_map, List.map_map]
    have hbase : (FilteredRecipe.base ∘ annotateRecipe b t) = id :=
      funext fun r => annotateRecipe_base b t r
    rw [hbase, List.map_id]
    have hcong : List.filter ((fun f => f.fitsInBudget) ∘ annotateRecipe b t) recipes
        = List.filter (fun r => decide (scaledCost t r ≤ b)) recipes := by
      apply List.filter_congr
      intro r _
      simp only [Function.comp_apply]
      exact annotateRecipe_fits b t r
    rw [hcong]
  · intro f hf
    obtain ⟨_, _, r, hr, rfl, hfits⟩ := exists_of_mem_filterAndRank hf
    rw [annotateRecipe_fits] at hfits
    refine ⟨?_, ?_, ?_⟩
    · rw [annotateRecipe_fits]
      exact hfits
    · rw [annotateRecipe_base, annotateRecipe_scaledTotalCost]
    · rw [annotateRecipe_scaledTotalCost]
      exact of_decide_eq_true hfits

/-- Witness for C4 at a two-recipe collection, budget 150, 4 servings. -/
theorem filterAndRank_budget_exact_check :
    (0 : ℚ) < 150 ∧ (0 : ℚ) < 4 ∧
    (((filterRecipesByBudgetAndServings [demoRecipe, zeroServingsRecipe]
          (some 150) (some 4)).map FilteredRecipe.base).Perm
        ([demoRecipe, zeroServingsRecipe].filter
          (fun r => decide (scaledCost 4 r ≤ 150))) ∧
      ∀ f ∈ filterRecipesByBudgetAndServings [demoRecipe, zeroServingsRecipe]
          (some 150) (some 4),
        f.fitsInBudget = true ∧ f.scaledTotalCost = scaledCost 4 f.base ∧
        f.scaledTotalCost ≤ 150) :=
  ⟨by norm_num, by norm_num,
   filterAndRank_budget_exact [demoRecipe, zeroServingsRecipe] 150 4
     (by norm_num) (by norm_num)⟩

/-- C5: with positive budget and target, the filter output is sorted
ascending by costPerServing — a per-serving cost-efficiency ranking — and
recipes with equal costPerServing keep their relative input order: for each
cost value c the c-priced slice of the output equals the c-priced slice of
the annotated input in input order (stable sort). -/
theorem filterAndRank_ranking (recipes : List Recipe) (b t : ℚ)
    (hb : 0 < b) (ht : 0 < t) :
    (filterRecipesByBudgetAndServings recipes (some b) (some t)).Sorted
      (fun x y => x.costPerServing ≤ y.costPerServing) ∧
    ∀ c : ℚ,
      (filterRecipesByBudgetAndServings recipes (some b) (some t)).filter
        (fun f => decide (f.costPerServing = c)) =
      (recipes.map (annotateRecipe b t)).filter
        (fun f => decide (f.costPerServing = c) && f.fitsInBudget) := by
  rw [filterAndRank_pos recipes b t hb ht]
  constructor
  · have hs := List.sorted_mergeSort cpsLE_trans cpsLE_total
      ((recipes.map (annotateRecipe b t)).filter (fun f => f.fitsInBudget))
    exact hs.imp fun h => of_decide_eq_true h
  · intro c
    have hall : ∀ x ∈ ((recipes.map (annotateRecipe b t)).filter
          (fun f => f.fitsInBudget)).filter (fun f => decide (f.costPerServing = c)),
        ∀ y ∈ ((recipes.map (annotateRecipe b t)).filter
          (fun f => f.fitsInBudget)).filter (fun f => decide (f.costPerServing = c)),
        cpsLE x y = true := by
      intro x hx y hy
      have hxc := List.of_mem_filter hx
      have hyc := List.of_mem_filter hy
      simp only [decide_eq_true_iff] at hxc hyc
      simp only [cpsLE, hxc, hyc, decide_eq_true_iff]
      exact le_refl c
    have h1 := List.filter_sublist (p := fun f => decide (f.costPerServing = c))
      ((recipes.map (annotateRecipe b t)).filter (fun f => f.fitsInBudget))
    have h2 := List.sublist_mergeSort cpsLE_trans cpsLE_total
      (List.pairwise_of_forall_mem_list hall) h1
    have h3 : (((recipes.map (annotateRecipe b t)).filter (fun f => f.fitsInBudget)).filter
          (fun f => decide (f.costPerServing = c))).filter
          (fun f => decide (f.costPerServing = c)) =
        ((recipes.map (annotateRecipe b t)).filter (fun f => f.fitsInBudget)).filter
          (fun f => decide (f.costPerServing = c)) := by
      rw [List.filter_filter]
      apply List.filter_congr
      intro a _
      exact Bool.and_self _
    have h4 := h2.filter (fun f => decide (f.costPerServing = c))
    rw [h3] at h4
    have h5 := (List.mergeSort_perm
      ((recipes.map (annotateRecipe b t)).filter (fun f => f.fitsInBudget)) cpsLE).filter
      (fun f => decide (f.costPerServing = c))
    have h6 := List.Sublist.eq_of_length h4 h5.length_eq.symm
    rw [← h6, List.filter_filter]

/-- Witness for C5 at a two-recipe collection, budget 150, 4 servings. -/
theorem filterAndRank_ranking_check :
    (0 : ℚ) < 150 ∧ (0 : ℚ) < 4 ∧
    ((filterRecipesByBudgetAndServings [demoRecipe, zeroServingsRecipe]
        (some 150) (some 4)).Sorted
      (fun x y => x.costPerServing ≤ y.costPerServing) ∧
    ∀ c : ℚ,
      (filterRecipesByBudgetAndServings [demoRecipe, zeroServingsRecipe]
          (some 150) (some 4)).filter
        (fun f => decide (f.costPerServing = c)) =
      ([demoRecipe, zeroServingsRecipe].map (annotateRecipe 150 4)).filter
        (fun f => decide (f.costPerServing = c) && f.fitsInBudget)) :=
  ⟨by norm_num, by norm_num,
   filterAndRank_ranking [demoRecipe, zeroServingsRecipe] 150 4
     (by norm_num) (by norm_num)⟩

/-- C6 counterexample: filterRecipesByBudgetRange with every budget and
servings parameter missing returns the full recipe list, not the empty
list: missing bounds default to 0 and MAX_SAFE_INTEGER. -/
theorem byRange_missing_params_nonempty :
    (filterRecipesByBudgetRange [demoRecipe] none none none).length = 1 := by
  simp only [filterRecipesByBudgetRange]
  rw [if_neg (by simp : ¬([demoRecipe] : List Recipe).isEmpty = true)]
  rw [List.length_mergeSort]
  rfl

/-- C6 (amended): filterAndRank returns an empty list — never an error —
for missing, zero or negative budget or servings, and when no recipe's
scaled cost fits the budget; filterRecipesByBudgetRange also never errors
and returns an empty list when no recipe's cost lies in the window, but a
missing or zero bound defaults (minimum to 0, maximum to
MAX_SAFE_INTEGER), so with all parameters missing it returns every recipe
whose cost is non-negative and at most MAX_SAFE_INTEGER. -/
theorem lenient_empty_results :
    (∀ (recipes : List Recipe) (t : Option ℚ),
      filterRecipesByBudgetAndServings recipes none t = []) ∧
    (∀ (recipes : List Recipe) (b : Option ℚ),
      filterRecipesByBudgetAndServings recipes b none = []) ∧
    (∀ (recipes : List Recipe) (b t : ℚ), b ≤ 0 ∨ t ≤ 0 →
      filterRecipesByBudgetAndServings recipes (some b) (some t) = []) ∧
    (∀ (recipes : List Recipe) (b t : ℚ),
      (∀ r ∈ recipes, ¬scaledCost t r ≤ b) →
      filterRecipesByBudgetAndServings recipes (some b) (some t) = []) ∧
    (∀ (recipes : List Recipe) (mn mx ts : Option ℚ),
      (∀ r ∈ recipes, ¬(jsOrDefault mn 0 ≤ rangeCost (rangeAnnotate ts r) ∧
        rangeCost (rangeAnnotate ts r) ≤ jsOrDefault mx maxSafeInteger)) →
      filterRecipesByBudgetRange recipes mn mx ts = []) ∧
    (∀ recipes : List Recipe,
      (∀ r ∈ recipes, 0 ≤ r.totalCost ∧ r.totalCost ≤ maxSafeInteger) →
      (filterRecipesByBudgetRange recipes none none none).length = recipes.length) := by
  refine ⟨?_, ?_, ?_, ?_, ?_, ?_⟩
  · intro recipes t
    cases t <;> rfl
  · intro recipes b
    cases b <;> rfl
  · intro recipes b t hbt
    rw [filterRecipesByBudgetAndServings]
    split
    · rfl
    · rw [if_pos]
      rcases hbt with hb | ht
      · exact Or.inr (Or.inl hb)
      · exact Or.inr (Or.inr (Or.inr ht))
  · intro recipes b t hno
    rw [filterRecipesByBudgetAndServings]
    split
    · rfl
    · split
      · rfl
      · have hnil : (recipes.map (annotateRecipe b t)).filter
            (fun f => f.fitsInBudget) = [] := by
          rw [List.filter_eq_nil_iff]
          intro f hf
          obtain ⟨r, hr, rfl⟩ := List.mem_map.mp hf
          rw [annotateRecipe_fits]
          simp only [decide_eq_true_iff]
          exact hno r hr
        rw [hnil]
        exact List.mergeSort_nil
  · intro recipes mn mx ts hno
    rw [filterRecipesByBudgetRange]
    split
    · rfl
    · have hnil : (recipes.map (rangeAnnotate ts)).filter
          (fun r => decide (jsOrDefault mn 0 ≤ rangeCost r) &&
            decide (rangeCost r ≤ jsOrDefault mx maxSafeInteger)) = [] := by
        rw [List.filter_eq_nil_iff]
        intro f hf
        obtain ⟨r, hr, rfl⟩ := List.mem_map.mp hf
        simp only [Bool.and_eq_true, decide_eq_true_iff, not_and]
        intro h1 h2
        exact hno r hr ⟨h1, h2⟩
      rw [hnil]
      exact List.mergeSort_nil
  · intro recipes hall
    rw [filterRecipesByBudgetRange]
    split
    · next hre =>
      rw [List.isEmpty_iff.mp hre]
      rfl
    · have hself : (recipes.map (rangeAnnotate none)).filter
          (fun r => decide (jsOrDefault none 0 ≤ rangeCost r) &&
            decide (rangeCost r ≤ jsOrDefault none maxSafeInteger)) =
          recipes.map (rangeAnnotate none) := by
        rw [List.filter_eq_self]
        intro f hf
        obtain ⟨r, hr, rfl⟩ := List.mem_map.mp hf
        have hcost : rangeCost (rangeAnnotate none r) = r.totalCost := rfl
        simp only [Bool.and_eq_true, decide_eq_true_iff, hcost, jsOrDefault]
        exact hall r hr
      rw [hself, List.length_mergeSort, List.length_map]

/-- C10: a recipe whose servings descriptor parses to 0 raises no error
anywhere: the scale factor becomes infinite, the rounding guard collapses
every product with it to 0, so scaleToServings returns ingredient
quantities and costs, totalCost and costPerServing all equal to 0; and
filterAndRank marks such a recipe as fitting every positive budget with
costPerServing 0, which ranks it (jointly) first, since no member of the
output of a non-negatively priced collection has a negative
costPerServing. -/
theorem zero_parsed_servings (r : Recipe) (T : ℚ)
    (h0 : parseServings r.servings = 0) (hT : 0 < T) :
    (∃ out : ScaledRecipe, scaleRecipeToServings r T = .ok out ∧
      out.totalCost = 0 ∧ out.costPerServing = 0 ∧
      ∀ ing ∈ out.ingredients, ing.quantity = 0 ∧ ing.totalCost = 0) ∧
    (∀ (recipes : List Recipe) (b : ℚ), 0 < b → r ∈ recipes →
      (annotateRecipe b T r).fitsInBudget = true ∧
      (annotateRecipe b T r).costPerServing = 0 ∧
      annotateRecipe b T r ∈
        filterRecipesByBudgetAndServings recipes (some b) (some T)) ∧
    (∀ (recipes : List Recipe) (b : ℚ),
      (∀ r2 ∈ recipes, 0 ≤ r2.totalCost ∧ 0 ≤ parseServings r2.servings) →
      ∀ f ∈ filterRecipesByBudgetAndServings recipes (some b) (some T),
        0 ≤ f.costPerServing) := by
  have hne : parseServings r.servings ≠ T := by
    rw [h0]
    exact ne_of_lt hT
  have hsc : scaledCost T r = 0 := by
    rw [scaledCost, h0, div_zero, mul_zero, round2_zero]
  have hfit : ∀ b : ℚ, 0 < b → (annotateRecipe b T r).fitsInBudget = true := by
    intro b hb
    rw [annotateRecipe_fits, hsc]
    simp only [decide_eq_true_iff]
    exact le_of_lt hb
  refine ⟨?_, ?_, ?_⟩
  · refine ⟨_, scale_eq_scaled r T hT hne, ?_, ?_, ?_⟩
    · show round2 (r.totalCost * (T / parseServings r.servings)) = 0
      rw [h0, div_zero, mul_zero, round2_zero]
    · show round2 (round2 (r.totalCost * (T / parseServings r.servings)) / T) = 0
      rw [h0, div_zero, mul_zero, round2_zero, zero_div, round2_zero]
    · intro ing hing
      obtain ⟨a, ha, rfl⟩ := List.mem_map.mp hing
      constructor
      · show round2 (a.quantity * (T / parseServings r.servings)) = 0
        rw [h0, div_zero, mul_zero, round2_zero]
      · show round2 (a.totalCost * (T / parseServings r.servings)) = 0
        rw [h0, div_zero, mul_zero, round2_zero]
  · intro recipes b hb hr
    refine ⟨hfit b hb, ?_, ?_⟩
    · rw [annotateRecipe_costPerServing, hsc, zero_div, round2_zero]
    · rw [filterAndRank_pos recipes b T hb hT]
      apply List.mem_mergeSort.mpr
      exact List.mem_filter.mpr ⟨List.mem_map_of_mem _ hr, hfit b hb⟩
  · intro recipes b hnn f hf
    obtain ⟨hb2, ht2, r2, hr2, rfl, _⟩ := exists_of_mem_filterAndRank hf
    rw [annotateRecipe_costPerServing]
    apply round2_nonneg
    apply div_nonneg ?_ (le_of_lt ht2)
    rw [scaledCost]
    apply round2_nonneg
    exact mul_nonneg (hnn r2 hr2).1 (div_nonneg (le_of_lt ht2) (hnn r2 hr2).2)

/-- Witness for C10 at the zero-servings recipe scaled to 4 servings and
filtered in a two-recipe collection under budget 100. -/
theorem zero_parsed_servings_check :
    parseServings zeroServingsRecipe.servings = 0 ∧ (0 : ℚ) < 4 ∧
    (∃ out : ScaledRecipe, scaleRecipeToServings zeroServingsRecipe 4 = .ok out ∧
      out.totalCost = 0 ∧ out.costPerServing = 0 ∧
      ∀ ing ∈ out.ingredients, ing.quantity = 0 ∧ ing.totalCost = 0) ∧
    ((annotateRecipe 100 4 zeroServingsRecipe).fitsInBudget = true ∧
      (annotateRecipe 100 4 zeroServingsRecipe).costPerServing = 0 ∧
      annotateRecipe 100 4 zeroServingsRecipe ∈
        filterRecipesByBudgetAndServings [demoRecipe, zeroServingsRecipe]
          (some 100) (some 4)) :=
  ⟨by decide, by norm_num,
   (zero_parsed_servings zeroServingsRecipe 4 (by decide) (by norm_num)).1,
   (zero_parsed_servings zeroServingsRecipe 4 (by decide) (by norm_num)).2.1
     [demoRecipe, zeroServingsRecipe] 100 (by norm_num) (by simp)⟩

/-- Witness for the amended C6: a negative budget and a too-small budget
both empty the filter; a disjoint range empties the range filter; missing
range parameters return every recipe. -/
theorem lenient_empty_results_check :
    filterRecipesByBudgetAndServings [demoRecipe] (some (-1)) (some 4) = [] ∧
    filterRecipesByBudgetAndServings [demoRecipe] (some 5) (some 4) = [] ∧
    filterRecipesByBudgetRange [demoRecipe] (some 200) (some 300) none = [] ∧
    (filterRecipesByBudgetRange [demoRecipe] none none none).length =
      ([demoRecipe] : List Recipe).length := by
  refine ⟨lenient_empty_results.2.2.1 [demoRecipe] (-1) 4 (Or.inl (by norm_num)),
          ?_,
          lenient_empty_results.2.2.2.2.1 [demoRecipe] (some 200) (some 300) none
            (by decide),
          lenient_empty_results.2.2.2.2.2 [demoRecipe] (by decide)⟩
  refine lenient_empty_results.2.2.2.1 [demoRecipe] 5 4 ?_
  intro r hr
  rw [List.mem_singleton] at hr
  subst hr
  rw [scaledCost, (by decide : parseServings demoRecipe.servings = 4), round2_eq]
  norm_num [demoRecipe]
